import Mathlib

set_option linter.unusedVariables false

/-
Verification of the Spatial Conflict Detection Engine
(ConflictController / ConflictRepository / ProjectRepository /
FlightProcedureRepository / ProjectController).

The engine is shallowly embedded: GeoJSON payloads become an inductive
JSON type `J`, the opaque GDAL/OGR geometry capability becomes a
structure of functions `GeomCap`, the persistence gateway becomes an
explicit database value `Db` plus a context `Ctx` of read-only inputs
and fault oracles (each oracle marks whether a given storage call
throws, mirroring the try/catch structure of the C++ repositories).
-/

/-- JSON values, as inspected by the C++ code through nlohmann::json
(`contains`, `operator[]`, `is_array`, string comparison). -/
inductive J where
  | null
  | bool (b : Bool)
  | num (n : Int)
  | str (s : String)
  | arr (elems : List J)
  | obj (fields : List (String × J))

/-- Object field lookup: models nlohmann `contains` + `operator[]`
(first matching key; `none` on non-objects and missing keys). -/
def J.get (j : J) (k : String) : Option J :=
  match j with
  | .obj fields => fields.lookup k
  | _ => none

/-- Models the C++ pattern `j.contains("type") && j["type"] == t`
(a json-to-string comparison, true only when the field is that string). -/
def J.isType (j : J) (t : String) : Bool :=
  match j.get "type" with
  | some (J.str s) => s = t
  | _ => false

theorem J.sizeOf_lookup {fields : List (String × J)} {k : String} {v : J}
    (h : fields.lookup k = some v) : sizeOf v < sizeOf fields := by
  induction fields with
  | nil => simp [List.lookup] at h
  | cons hd tl ih =>
    rcases hd with ⟨a, b⟩
    simp only [List.lookup] at h
    split at h
    · cases h
      simp only [List.cons.sizeOf_spec, Prod.mk.sizeOf_spec]
      omega
    · have := ih h
      simp only [List.cons.sizeOf_spec, Prod.mk.sizeOf_spec]
      omega

theorem J.sizeOf_get {j v : J} {k : String} (h : j.get k = some v) :
    sizeOf v < sizeOf j := by
  cases j <;> simp only [J.get] at h <;> try exact absurd h (by simp)
  case obj fields =>
    have := J.sizeOf_lookup h
    simp only [J.obj.sizeOf_spec]
    omega

/-- The opaque "Geometry Capability" (GDAL/OGR boundary): parse a raw
GeoJSON geometry object, test validity, zero-distance buffer, test and
compute intersections, build a geometry collection, export to GeoJSON
text.  `intersectsE` may raise (the C++ wraps `Intersects` in
try/catch); `parseGeom`, `buffer0`, `intersection` and `exportJson`
signal failure by returning null, as the C/C++ APIs used do. -/
structure GeomCap (γ : Type) where
  parseGeom : J → Option γ
  isValid : γ → Bool
  buffer0 : γ → Option γ
  intersectsE : γ → γ → Except Unit Bool
  intersection : γ → γ → Option γ
  mkCollection : List γ → γ
  exportJson : γ → Option String

/-- The validity-repair step used uniformly in the engine
(ConflictController.cpp:382-389 and 249-257): if the geometry is
invalid, attempt Buffer(0); keep the repaired geometry when the buffer
returns non-null, otherwise keep the original. -/
def repairGeom {γ : Type} (cap : GeomCap γ) (g : γ) : γ :=
  if cap.isValid g then g else (cap.buffer0 g).getD g

/-- ConflictController::createSimpleGeometryFromGeoJSON
(ConflictController.cpp:366-397): unwrap a `Feature` wrapper
recursively (null when the Feature has no geometry field), otherwise
parse as a raw geometry and apply the validity fix. -/
def createSimpleGeometryFromGeoJSON {γ : Type} (cap : GeomCap γ) (j : J) : Option γ :=
  if j.isType "Feature" then
    match h : j.get "geometry" with
    | none => none
    | some gj => createSimpleGeometryFromGeoJSON cap gj
  else
    (cap.parseGeom j).map (repairGeom cap)
termination_by sizeOf j
decreasing_by exact J.sizeOf_get h

/-- Project status values (Project.h:10-17). -/
inductive ProjectStatus where
  | Created
  | Pending
  | UnderReview
  | Accepted
  | Refused
  | Cancelled
deriving DecidableEq, Repr

/-- The slice of a stored project row the engine reads or writes:
`analyzeProject` only ever rewrites the row with its status changed to
UnderReview (ConflictController.cpp:350-359), so the other columns are
constant through the engine and are omitted. -/
structure Project where
  status : ProjectStatus
deriving DecidableEq, Repr

/-- A persisted conflicts-table row as written by
ConflictRepository::create (project_id, flight_procedure_id,
description, conflicting_geometry). -/
structure ConflictRow where
  project_id : Int
  flight_procedure_id : Int
  description : String
  conflicting_geometry : String
deriving DecidableEq, Repr

/-- The mutable persistent state touched by one analysis run: the
conflicts table and the projects table. -/
structure Db where
  conflicts : List ConflictRow
  projects : List (Int × Project)
deriving DecidableEq, Repr

/-- ProjectRepository::findById restricted to the status slice
(SELECT ... WHERE p.id = id). -/
def Db.findProject (db : Db) (pid : Int) : Option Project :=
  db.projects.lookup pid

/-- Effect of ProjectRepository::update on the stored row: the row for
`pid` is rewritten with the supplied project value. -/
def Db.storeProject (db : Db) (pid : Int) (p : Project) : Db :=
  { db with projects := db.projects.map (fun e => if e.1 = pid then (e.1, p) else e) }

/-- A row of the active-protections query
(FlightProcedureRepository.cpp:582-608): procedure id, code, name, and
the protection_geometry column.  `geometry = none` models a
protection_geometry string that nlohmann::json::parse rejects
(the catch at lines 632-635). -/
structure ProtRow where
  procedure_id : Int
  procedure_code : String
  name : String
  geometry : Option J

/-- The polygon coordinates collected from a FeatureCollection's
features (FlightProcedureRepository.cpp:614-620): each feature carrying
a geometry whose type is "Polygon" contributes its coordinates. -/
def polyCoordinates (feats : List J) : List J :=
  feats.filterMap (fun f =>
    match f.get "geometry" with
    | some g =>
      match g.get "type" with
      | some (J.str t) =>
        if t = "Polygon" then some ((g.get "coordinates").getD J.null) else none
      | _ => none
    | none => none)

/-- The MultiPolygon object assembled at
FlightProcedureRepository.cpp:622-625. -/
def multiPolygonOf (feats : List J) : J :=
  J.obj [("type", J.str "MultiPolygon"), ("coordinates", J.arr (polyCoordinates feats))]

/-- FlightProcedureRepository.cpp:610-635: a protection_geometry that
is a FeatureCollection (has a "features" array) is converted to a
MultiPolygon of its Polygon features; any other parsed JSON is used
as-is; an unparsable string becomes the empty object. -/
def convertProtectionGeometry (raw : Option J) : J :=
  match raw with
  | none => J.obj []
  | some fc =>
    match fc.get "features" with
    | some (J.arr feats) => multiPolygonOf feats
    | _ => fc

/-- The in-memory protection record handed to the engine
(procedure_id, protection_name built at
FlightProcedureRepository.cpp:637-638, converted geometry). -/
structure Protection where
  procedure_id : Int
  protection_name : String
  protection_geometry : J

/-- FlightProcedureRepository.cpp:636-638: row-to-protection assembly. -/
def toProtection (r : ProtRow) : Protection :=
  { procedure_id := r.procedure_id
    protection_name := r.procedure_code ++ " - " ++ r.name ++ " Protection Zone"
    protection_geometry := convertProtectionGeometry r.geometry }

/-- The read-only inputs and fault oracles of one analysis run.  Each
`...Fault` flag records whether the corresponding storage call raises
(or, for the delete, fails); `insertOk` records, per attempted row,
whether the conflict INSERT succeeds; `updateOk` whether the status
UPDATE query succeeds. -/
structure Ctx (γ : Type) where
  cap : GeomCap γ
  /-- Result row of `SELECT geometry_data FROM project_geometries ...`:
  outer `none` = no row; inner `none` = a stored string that
  nlohmann::json::parse rejects (the exception is caught at
  ConflictController.cpp:231-234). -/
  projGeomRow : Option (Option J)
  /-- ProjectRepository::findGeometriesByProjectId rethrows storage
  exceptions (ProjectRepository.cpp:185-188). -/
  projGeomFault : Bool
  protRows : List ProtRow
  /-- FlightProcedureRepository::findAllActiveProtections catches
  storage failures internally and returns an empty list
  (FlightProcedureRepository.cpp:659-665). -/
  protFault : Bool
  /-- ConflictRepository::deleteByProjectId: the DELETE throws or
  fails (caught internally, ConflictRepository.cpp:28-30). -/
  deleteFault : Bool
  insertOk : ConflictRow → Bool
  /-- ProjectRepository::findById rethrows storage exceptions
  (ProjectRepository.cpp:129-132). -/
  findProjectFault : Bool
  /-- ProjectRepository::update rethrows storage exceptions. -/
  updateFault : Bool
  updateOk : Bool

/-- A storage exception escaping a repository call. -/
inductive Err where
  | storage
deriving DecidableEq, Repr

/-- ConflictRepository::deleteByProjectId (ConflictRepository.cpp:22-31):
run `DELETE FROM conflicts WHERE project_id = pid`; every exception is
caught and logged, so the call always returns normally. -/
def deleteByProjectId {γ : Type} (c : Ctx γ) (pid : Int) (db : Db) : Db :=
  if c.deleteFault then db
  else { db with conflicts := db.conflicts.filter (fun r => r.project_id != pid) }

/-- FlightProcedureRepository::findAllActiveProtections
(FlightProcedureRepository.cpp:576-669): deliver the active rows,
converted; a storage failure is caught and yields the empty list. -/
def findAllActiveProtections {γ : Type} (c : Ctx γ) : List Protection :=
  if c.protFault then [] else c.protRows.map toProtection

/-- The project-payload parsing block of analyzeProject
(ConflictController.cpp:190-222): a FeatureCollection is iterated
feature by feature — a feature without a "geometry" key is skipped with
a warning, a present geometry is parsed via
createSimpleGeometryFromGeoJSON and kept only on success; a
FeatureCollection without a features array aborts with no geometries
(line 193); any other payload is parsed as a single geometry. -/
def parseProjectGeoms {γ : Type} (cap : GeomCap γ) (pj : J) : List γ :=
  if pj.isType "FeatureCollection" then
    match pj.get "features" with
    | some (J.arr feats) =>
      feats.filterMap (fun f =>
        match f.get "geometry" with
        | none => none
        | some gj => createSimpleGeometryFromGeoJSON cap gj)
    | _ => []
  else
    match createSimpleGeometryFromGeoJSON cap pj with
    | some g => [g]
    | none => []

/-- The pair-testing loop for one protection zone
(ConflictController.cpp:259-282): fold over the project geometries in
order; an exception from Intersects is caught and the pair skipped; a
positive test records the hit and appends the best-effort intersection
geometry when OGR_G_Intersection returns non-null. -/
def zoneHits {γ : Type} (cap : GeomCap γ) (gs : List γ) (zg : γ) : Bool × List γ :=
  gs.foldl (fun acc g =>
    match cap.intersectsE g zg with
    | .error _ => acc
    | .ok false => acc
    | .ok true => (true, acc.2 ++ (cap.intersection g zg).toList)) (false, [])

/-- The empty-but-valid placeholder written when no intersection
geometry is available (ConflictController.cpp:289). -/
def emptyGeomJson : String := "\x7b\x7d"

/-- ConflictController.cpp:288-320: zero computed intersections keep
the placeholder; exactly one is exported directly; several are combined
into one OGRGeometryCollection and exported; a null/failed export keeps
the placeholder. -/
def conflictGeomJson {γ : Type} (cap : GeomCap γ) (ints : List γ) : String :=
  match ints with
  | [] => emptyGeomJson
  | [g] => (cap.exportJson g).getD emptyGeomJson
  | _ => (cap.exportJson (cap.mkCollection ints)).getD emptyGeomJson

/-- The deterministic conflict description
(ConflictController.cpp:327-328). -/
def conflictDescription (p : Protection) : String :=
  "Conflict with procedure " ++ toString p.procedure_id ++
    " in protection area \x27" ++ p.protection_name ++ "\x27."

/-- One iteration of the zone loop (ConflictController.cpp:239-337):
parse the zone geometry (skip the zone on failure), apply the second
validity fix (lines 249-257), run the pair tests, and on a hit build
the single conflict row for this (project, zone) pair. -/
def processZone {γ : Type} (cap : GeomCap γ) (pid : Int) (gs : List γ) (p : Protection) :
    Option ConflictRow :=
  match createSimpleGeometryFromGeoJSON cap p.protection_geometry with
  | none => none
  | some zg0 =>
    let zg := repairGeom cap zg0
    let hits := zoneHits cap gs zg
    if hits.1 then
      some { project_id := pid
             flight_procedure_id := p.procedure_id
             description := conflictDescription p
             conflicting_geometry := conflictGeomJson cap hits.2 }
    else none

/-- The persistence part of the zone loop: each produced row is handed
to ConflictRepository::create, which catches its own exceptions and
reports success as a Bool (ConflictRepository.cpp:33-104); only
successful inserts change the conflicts table. -/
def insertZoneConflicts {γ : Type} (c : Ctx γ) (pid : Int) (gs : List γ)
    (ps : List Protection) (db : Db) : Db :=
  ps.foldl (fun db p =>
    match processZone c.cap pid gs p with
    | none => db
    | some row =>
      if c.insertOk row then { db with conflicts := db.conflicts ++ [row] } else db) db

/-- The status-transition tail of analyzeProject
(ConflictController.cpp:349-362): findById (rethrows on storage
failure), then — when the project is found — update it with status
UnderReview (update rethrows on storage failure; an unsuccessful UPDATE
is only logged). -/
def updateStatusStep {γ : Type} (c : Ctx γ) (pid : Int) (db : Db) : Db × Option Err :=
  if c.findProjectFault then (db, some .storage)
  else
    match db.findProject pid with
    | none => (db, none)
    | some p =>
      if c.updateFault then (db, some .storage)
      else if c.updateOk then (db.storeProject pid { p with status := .UnderReview }, none)
      else (db, none)

/-- ConflictController::analyzeProject (ConflictController.cpp:167-363).
Control flow, in source order: delete stale conflicts (failure
swallowed); fetch the project geometry row (storage failure escapes)
and the active protections; abort when the geometry row is missing or
no protections exist (line 179-182); parse the payload — a JSON parse
exception (line 231-234), an invalid FeatureCollection (line 191-194)
and an empty parsed set (line 224-227) all abort with nothing written;
otherwise run the zone loop and finally flip the project status to
UnderReview.  The returned `Option Err` is an exception escaping the
function. -/
def analyzeProject {γ : Type} (c : Ctx γ) (pid : Int) (db : Db) : Db × Option Err :=
  let db1 := deleteByProjectId c pid db
  if c.projGeomFault then (db1, some .storage)
  else
    match c.projGeomRow with
    | none => (db1, none)
    | some txt =>
      if (findAllActiveProtections c).isEmpty then (db1, none)
      else
        match txt with
        | none => (db1, none)
        | some pj =>
          let gs := parseProjectGeoms c.cap pj
          if gs.isEmpty then (db1, none)
          else
            let db2 := insertZoneConflicts c pid gs (findAllActiveProtections c) db1
            updateStatusStep c pid db2

/-- The list of conflict rows a run appends (the zone loop's successful
inserts), empty whenever the run aborts before the loop; used to state
the run's effect on the conflicts table. -/
def runInserts {γ : Type} (c : Ctx γ) (pid : Int) : List ConflictRow :=
  if c.projGeomFault then []
  else
    match c.projGeomRow with
    | none => []
    | some txt =>
      if (findAllActiveProtections c).isEmpty then []
      else
        match txt with
        | none => []
        | some pj =>
          if (parseProjectGeoms c.cap pj).isEmpty then []
          else
            (findAllActiveProtections c).filterMap (fun p =>
              (processZone c.cap pid (parseProjectGeoms c.cap pj) p).bind (fun row =>
                if c.insertOk row then some row else none))

/-- The precondition checks of one run: a stored geometry row exists,
the active-protection set is non-empty, and at least one project
geometry parsed successfully. -/
def precondsHold {γ : Type} (c : Ctx γ) : Bool :=
  c.projGeomRow.isSome && !(findAllActiveProtections c).isEmpty &&
    !(match c.projGeomRow with
      | some (some pj) => parseProjectGeoms c.cap pj
      | _ => []).isEmpty

/-- The acknowledgement of a submit request
(ProjectController.cpp:370-379). -/
structure SubmitResponse where
  status : Nat
  message : String
deriving DecidableEq, Repr

/-- The tail of ProjectController::submitProject after the project row
was updated (ProjectController.cpp:363-379).  The std::future returned
by std::async at line 365 is discarded immediately; by the C++ standard
the destructor of such a future blocks until the asynchronous task
completes, so analyzeProject runs to completion before control reaches
the construction of the 202 response. -/
def submitProjectTail {γ : Type} (c : Ctx γ) (pid : Int) (db : Db) : Db × SubmitResponse :=
  let afterAnalysis := (analyzeProject c pid db).1
  (afterAnalysis,
   { status := 202, message := "Project submission accepted. Analysis is in progress." })

theorem insertZoneConflicts_conflicts {γ : Type} (c : Ctx γ) (pid : Int) (gs : List γ)
    (ps : List Protection) (db : Db) :
    (insertZoneConflicts c pid gs ps db).conflicts =
      db.conflicts ++ ps.filterMap (fun p =>
        (processZone c.cap pid gs p).bind (fun row =>
          if c.insertOk row then some row else none)) := by
  induction ps generalizing db with
  | nil => simp [insertZoneConflicts]
  | cons p rest ih =>
    simp only [insertZoneConflicts, List.foldl_cons, List.filterMap_cons]
    cases hz : processZone c.cap pid gs p with
    | none =>
      simpa [insertZoneConflicts] using ih db
    | some row =>
      by_cases hins : c.insertOk row
      · have := ih { db with conflicts := db.conflicts ++ [row] }
        simp only [insertZoneConflicts] at this
        simp [hins, this]
      · simpa [insertZoneConflicts, hins] using ih db

theorem insertZoneConflicts_projects {γ : Type} (c : Ctx γ) (pid : Int) (gs : List γ)
    (ps : List Protection) (db : Db) :
    (insertZoneConflicts c pid gs ps db).projects = db.projects := by
  induction ps generalizing db with
  | nil => simp [insertZoneConflicts]
  | cons p rest ih =>
    simp only [insertZoneConflicts, List.foldl_cons]
    cases hz : processZone c.cap pid gs p with
    | none => simpa [insertZoneConflicts] using ih db
    | some row =>
      by_cases hins : c.insertOk row
      · simp only [hins, if_pos]
        simpa [insertZoneConflicts] using ih { db with conflicts := db.conflicts ++ [row] }
      · simp only [hins, if_neg]
        simpa [insertZoneConflicts] using ih db

theorem updateStatusStep_conflicts {γ : Type} (c : Ctx γ) (pid : Int) (db : Db) :
    (updateStatusStep c pid db).1.conflicts = db.conflicts := by
  unfold updateStatusStep
  split
  · rfl
  · cases db.findProject pid with
    | none => rfl
    | some p =>
      simp only
      split
      · rfl
      · split <;> rfl

theorem analyzeProject_conflicts {γ : Type} (c : Ctx γ) (pid : Int) (db : Db) :
    (analyzeProject c pid db).1.conflicts =
      (deleteByProjectId c pid db).conflicts ++ runInserts c pid := by
  unfold analyzeProject runInserts
  cases hf : c.projGeomFault with
  | true => simp
  | false =>
    simp only [Bool.false_eq_true, if_false]
    cases hrow : c.projGeomRow with
    | none => simp
    | some txt =>
      simp only
      cases hps : (findAllActiveProtections c).isEmpty with
      | true => simp
      | false =>
        simp only [Bool.false_eq_true, if_false]
        cases txt with
        | none => simp
        | some pj =>
          simp only
          cases hgs : (parseProjectGeoms c.cap pj).isEmpty with
          | true => simp
          | false =>
            simp only [Bool.false_eq_true, if_false]
            rw [updateStatusStep_conflicts, insertZoneConflicts_conflicts]

theorem processZone_ids {γ : Type} {cap : GeomCap γ} {pid : Int} {gs : List γ}
    {p : Protection} {row : ConflictRow} (h : processZone cap pid gs p = some row) :
    row.project_id = pid ∧ row.flight_procedure_id = p.procedure_id := by
  unfold processZone at h
  cases hz : createSimpleGeometryFromGeoJSON cap p.protection_geometry with
  | none => rw [hz] at h; cases h
  | some zg0 =>
    rw [hz] at h
    simp only at h
    split at h
    · cases h; exact ⟨rfl, rfl⟩
    · cases h

theorem runInserts_project_id {γ : Type} (c : Ctx γ) (pid : Int) :
    ∀ r ∈ runInserts c pid, r.project_id = pid := by
  intro r hr
  unfold runInserts at hr
  split at hr
  · cases hr
  · split at hr
    · cases hr
    · split at hr
      · cases hr
      · split at hr
        · cases hr
        · split at hr
          · cases hr
          · rcases List.mem_filterMap.mp hr with ⟨p, _, hp⟩
            cases hz : processZone c.cap pid _ p with
            | none => rw [hz] at hp; cases hp
            | some row =>
              rw [hz] at hp
              simp only [Option.some_bind] at hp
              split at hp
              · cases hp
                exact (processZone_ids hz).1
              · cases hp

theorem lookup_storeProject (l : List (Int × Project)) (pid : Int) (q : Project) :
    (l.map (fun e => if e.1 = pid then (e.1, q) else e)).lookup pid =
      (l.lookup pid).map (fun _ => q) := by
  induction l with
  | nil => simp [List.lookup]
  | cons hd tl ih =>
    rcases hd with ⟨a, b⟩
    simp only [List.map_cons]
    by_cases ha : a = pid
    · subst ha
      rw [if_pos (show (a, b).1 = a from rfl)]
      simp [List.lookup]
    · rw [if_neg ha]
      have hne : (pid == a) = false := by
        rw [beq_eq_false_iff_ne]
        exact fun h => ha h.symm
      simp [List.lookup, hne, ih]

theorem updateStatusStep_status {γ : Type} (c : Ctx γ) (pid : Int) (db : Db) (p : Project)
    (hff : c.findProjectFault = false) (huf : c.updateFault = false)
    (hok : c.updateOk = true) (hp : db.findProject pid = some p) :
    (updateStatusStep c pid db).1.findProject pid = some { p with status := .UnderReview } ∧
      (updateStatusStep c pid db).2 = none := by
  unfold updateStatusStep
  rw [hff, hp]
  simp only [Bool.false_eq_true, if_false, huf, hok, if_true]
  constructor
  · show (Db.storeProject db pid _).findProject pid = _
    unfold Db.storeProject Db.findProject
    simp only
    rw [lookup_storeProject]
    unfold Db.findProject at hp
    rw [hp]
    rfl
  · trivial

theorem run_conflictsFor {γ : Type} (c : Ctx γ) (pid : Int) (db : Db)
    (hdel : c.deleteFault = false) :
    (analyzeProject c pid db).1.conflicts.filter (fun r => r.project_id == pid) =
      runInserts c pid := by
  rw [analyzeProject_conflicts, List.filter_append]
  unfold deleteByProjectId
  rw [hdel]
  simp only [Bool.false_eq_true, if_false, List.filter_filter]
  have h1 : (fun (a : ConflictRow) => (a.project_id == pid) && (a.project_id != pid)) =
      fun _ => false := by
    funext a
    cases h : a.project_id == pid <;> simp [bne, h]
  have h2 : ∀ r ∈ runInserts c pid, (r.project_id == pid) = true := by
    intro r hr
    exact beq_iff_eq.mpr (runInserts_project_id c pid r hr)
  rw [List.filter_congr (fun a _ => congrFun h1 a), List.filter_false,
    List.filter_eq_self.mpr h2]
  rfl

/-- Claim C2: every analysis run first deletes the project's existing
Conflict rows and only then inserts the new ones, so two successive
runs with unchanged inputs leave the same Conflict set for the project,
with equal row count after run 1 and run 2 (hypothesis: the DELETE
itself does not fail; a failed DELETE is swallowed and would leave
stale rows in place). -/
theorem c2_rerun_replaces_conflicts {γ : Type} (c : Ctx γ) (pid : Int) (db : Db)
    (hdel : c.deleteFault = false) :
    (analyzeProject c pid db).1.conflicts =
        (deleteByProjectId c pid db).conflicts ++ runInserts c pid ∧
    (analyzeProject c pid (analyzeProject c pid db).1).1.conflicts.filter
        (fun r => r.project_id == pid) =
      (analyzeProject c pid db).1.conflicts.filter (fun r => r.project_id == pid) ∧
    ((analyzeProject c pid (analyzeProject c pid db).1).1.conflicts.filter
        (fun r => r.project_id == pid)).length =
      ((analyzeProject c pid db).1.conflicts.filter
        (fun r => r.project_id == pid)).length := by
  refine ⟨analyzeProject_conflicts c pid db, ?_, ?_⟩
  · rw [run_conflictsFor c pid _ hdel, run_conflictsFor c pid db hdel]
  · rw [run_conflictsFor c pid _ hdel, run_conflictsFor c pid db hdel]

/-- A trivial concrete capability: every payload parses, every
geometry is valid, nothing intersects. -/
def unitCap : GeomCap Unit :=
  { parseGeom := fun _ => some ()
    isValid := fun _ => true
    buffer0 := fun _ => some ()
    intersectsE := fun _ _ => .ok false
    intersection := fun _ _ => none
    mkCollection := fun _ => ()
    exportJson := fun _ => none }

/-- A concrete capability where everything parses and every pair
intersects, with computable intersections and exports. -/
def hitCap : GeomCap Unit :=
  { parseGeom := fun _ => some ()
    isValid := fun _ => true
    buffer0 := fun _ => some ()
    intersectsE := fun _ _ => .ok true
    intersection := fun _ _ => some ()
    mkCollection := fun _ => ()
    exportJson := fun _ => some "POLY" }

/-- A protection row whose stored geometry is the empty object. -/
def row42 : ProtRow :=
  { procedure_id := 42, procedure_code := "P1", name := "Noise", geometry := some (J.obj []) }

/-- A fault-free context: one stored raw geometry payload, one active
protection row, every storage call succeeds. -/
def okCtx : Ctx Unit :=
  { cap := unitCap
    projGeomRow := some (some (J.obj [("type", J.str "Point")]))
    projGeomFault := false
    protRows := [row42]
    protFault := false
    deleteFault := false
    insertOk := fun _ => true
    findProjectFault := false
    updateFault := false
    updateOk := true }

/-- okCtx with the intersecting capability. -/
def hitCtx : Ctx Unit := { okCtx with cap := hitCap }

/-- A database holding one Pending project with id 1. -/
def db0 : Db := { conflicts := [], projects := [(1, { status := .Pending })] }

theorem c2_witness :
    (analyzeProject hitCtx 1 db0).1.conflicts =
        (deleteByProjectId hitCtx 1 db0).conflicts ++ runInserts hitCtx 1 ∧
    (analyzeProject hitCtx 1 (analyzeProject hitCtx 1 db0).1).1.conflicts.filter
        (fun r => r.project_id == 1) =
      (analyzeProject hitCtx 1 db0).1.conflicts.filter (fun r => r.project_id == 1) ∧
    ((analyzeProject hitCtx 1 (analyzeProject hitCtx 1 db0).1).1.conflicts.filter
        (fun r => r.project_id == 1)).length =
      ((analyzeProject hitCtx 1 db0).1.conflicts.filter
        (fun r => r.project_id == 1)).length :=
  c2_rerun_replaces_conflicts hitCtx 1 db0 rfl

/-- Claim C10 (implicit): ConflictRepository::deleteByProjectId
swallows every exception and returns normally, so a failed deletion of
the previous run's rows does not abort the run — analyzeProject still
fetches, tests and inserts the same new Conflict rows (they are simply
appended after the surviving stale rows). -/
theorem c10_delete_failure_does_not_abort {γ : Type} (c : Ctx γ) (pid : Int) (db : Db)
    (hdel : c.deleteFault = true) :
    deleteByProjectId c pid db = db ∧
    (analyzeProject c pid db).1.conflicts = db.conflicts ++ runInserts c pid ∧
    runInserts c pid = runInserts { c with deleteFault := false } pid := by
  refine ⟨?_, ?_, rfl⟩
  · unfold deleteByProjectId
    rw [hdel]
    rfl
  · rw [analyzeProject_conflicts]
    unfold deleteByProjectId
    rw [hdel]
    rfl

/-- hitCtx with a failing conflicts DELETE. -/
def delFaultCtx : Ctx Unit := { hitCtx with deleteFault := true }

/-- A database already holding a stale conflict row of project 1. -/
def dbStale : Db :=
  { conflicts := [{ project_id := 1, flight_procedure_id := 7,
                    description := "old", conflicting_geometry := emptyGeomJson }]
    projects := [(1, { status := .Pending })] }

theorem c10_witness :
    deleteByProjectId delFaultCtx 1 dbStale = dbStale ∧
    (analyzeProject delFaultCtx 1 dbStale).1.conflicts =
      dbStale.conflicts ++ runInserts delFaultCtx 1 ∧
    runInserts delFaultCtx 1 = runInserts { delFaultCtx with deleteFault := false } 1 :=
  c10_delete_failure_does_not_abort delFaultCtx 1 dbStale rfl

theorem deleteByProjectId_projects {γ : Type} (c : Ctx γ) (pid : Int) (db : Db) :
    (deleteByProjectId c pid db).projects = db.projects := by
  unfold deleteByProjectId
  split <;> rfl

theorem analyzeProject_projects_of_not_preconds {γ : Type} (c : Ctx γ) (pid : Int) (db : Db)
    (hpf : c.projGeomFault = false) (hpre : precondsHold c = false) :
    (analyzeProject c pid db).1.projects = db.projects := by
  unfold analyzeProject
  rw [hpf]
  simp only [Bool.false_eq_true, if_false]
  cases hrow : c.projGeomRow with
  | none => simp [deleteByProjectId_projects]
  | some txt =>
    simp only
    cases hps : (findAllActiveProtections c).isEmpty with
    | true => simp [deleteByProjectId_projects]
    | false =>
      simp only [Bool.false_eq_true, if_false]
      cases txt with
      | none => simp [deleteByProjectId_projects]
      | some pj =>
        simp only
        cases hgs : (parseProjectGeoms c.cap pj).isEmpty with
        | true => simp [deleteByProjectId_projects]
        | false =>
          exfalso
          unfold precondsHold at hpre
          rw [hrow] at hpre
          simp [hps, hgs] at hpre

theorem analyzeProject_status_of_preconds {γ : Type} (c : Ctx γ) (pid : Int) (db : Db)
    (p : Project) (hpf : c.projGeomFault = false) (hff : c.findProjectFault = false)
    (huf : c.updateFault = false) (hok : c.updateOk = true)
    (hp : db.findProject pid = some p) (hpre : precondsHold c = true) :
    (analyzeProject c pid db).1.findProject pid = some { p with status := .UnderReview } ∧
      (analyzeProject c pid db).2 = none := by
  unfold precondsHold at hpre
  unfold analyzeProject
  rw [hpf]
  simp only [Bool.false_eq_true, if_false]
  cases hrow : c.projGeomRow with
  | none => rw [hrow] at hpre; simp at hpre
  | some txt =>
    simp only
    cases hps : (findAllActiveProtections c).isEmpty with
    | true => rw [hps] at hpre; simp at hpre
    | false =>
      simp only [Bool.false_eq_true, if_false]
      cases txt with
      | none => rw [hrow] at hpre; simp [hps] at hpre
      | some pj =>
        simp only
        cases hgs : (parseProjectGeoms c.cap pj).isEmpty with
        | true => rw [hrow, hgs] at hpre; simp [hps] at hpre
        | false =>
          simp only [Bool.false_eq_true, if_false]
          have hproj : (insertZoneConflicts c pid (parseProjectGeoms c.cap pj)
              (findAllActiveProtections c) (deleteByProjectId c pid db)).findProject pid =
                some p := by
            unfold Db.findProject
            rw [insertZoneConflicts_projects, deleteByProjectId_projects]
            exact hp
          exact updateStatusStep_status c pid _ p hff huf hok hproj

/-- Claim C1: for a fault-free gateway and an existing project not yet
UnderReview, the run sets the project status to UnderReview exactly
when all precondition checks pass (stored geometry row present, active
protection set non-empty, at least one geometry parsed), regardless of
how many conflicts were found; when any check fails the run terminates
with the projects table untouched. -/
theorem c1_status_iff_preconds {γ : Type} (c : Ctx γ) (pid : Int) (db : Db) (p : Project)
    (hpf : c.projGeomFault = false) (hff : c.findProjectFault = false)
    (huf : c.updateFault = false) (hok : c.updateOk = true)
    (hp : db.findProject pid = some p) (hst : p.status ≠ .UnderReview) :
    ((analyzeProject c pid db).1.findProject pid = some { p with status := .UnderReview }
        ↔ precondsHold c = true) ∧
    (precondsHold c = false → (analyzeProject c pid db).1.projects = db.projects) := by
  constructor
  · constructor
    · intro h
      by_contra hpre
      have hpre' : precondsHold c = false := by
        cases hv : precondsHold c
        · rfl
        · exact absurd hv hpre
      have hsame := analyzeProject_projects_of_not_preconds c pid db hpf hpre'
      have : (analyzeProject c pid db).1.findProject pid = some p := by
        unfold Db.findProject
        rw [hsame]
        exact hp
      rw [this] at h
      have := Option.some.inj h
      exact hst (congrArg Project.status this)
    · intro hpre
      exact (analyzeProject_status_of_preconds c pid db p hpf hff huf hok hp hpre).1
  · intro hpre
    exact analyzeProject_projects_of_not_preconds c pid db hpf hpre

theorem c1_witness :
    ((analyzeProject okCtx 1 db0).1.findProject 1 =
        some { status := ProjectStatus.UnderReview } ↔ precondsHold okCtx = true) ∧
    (precondsHold okCtx = false → (analyzeProject okCtx 1 db0).1.projects = db0.projects) :=
  c1_status_iff_preconds okCtx 1 db0 { status := .Pending } rfl rfl rfl rfl rfl
    (by decide)

theorem updateStatusStep_err {γ : Type} (c : Ctx γ) (pid : Int) (db : Db)
    (hff : c.findProjectFault = false) (huf : c.updateFault = false) :
    (updateStatusStep c pid db).2 = none := by
  unfold updateStatusStep
  rw [hff]
  simp only [Bool.false_eq_true, if_false]
  cases db.findProject pid with
  | none => rfl
  | some p =>
    simp only
    rw [huf]
    simp only [Bool.false_eq_true, if_false]
    split <;> rfl

/-- Claim C8, amended: every input, geometry-operation and
conflict-persistence failure is contained inside the run, and whenever
the three storage calls that rethrow (the project-geometry fetch, the
status findById and the status update) do not themselves raise, no
exception escapes analyzeProject — while those three calls are the
exception-escape routes. -/
theorem c8_contained_unless_storage_rethrows {γ : Type} (c : Ctx γ) (pid : Int) (db : Db)
    (hpf : c.projGeomFault = false) (hff : c.findProjectFault = false)
    (huf : c.updateFault = false) :
    (analyzeProject c pid db).2 = none := by
  unfold analyzeProject
  rw [hpf]
  simp only [Bool.false_eq_true, if_false]
  cases c.projGeomRow with
  | none => rfl
  | some txt =>
    simp only
    split
    · rfl
    · cases txt with
      | none => rfl
      | some pj =>
        simp only
        split
        · rfl
        · exact updateStatusStep_err c pid _ hff huf

/-- okCtx whose project-geometry fetch raises a storage exception. -/
def fetchFaultCtx : Ctx Unit := { okCtx with projGeomFault := true }

/-- Counterexample to C8 as stated: when the storage layer throws
inside ProjectRepository::findGeometriesByProjectId, the exception is
rethrown (ProjectRepository.cpp:185-188) and analyzeProject has no
enclosing handler (ConflictController.cpp:176), so the run does not
return normally. -/
theorem c8_counterexample :
    (analyzeProject fetchFaultCtx 1 db0).2 = some Err.storage := rfl

theorem c8_witness : (analyzeProject okCtx 1 db0).2 = none :=
  c8_contained_unless_storage_rethrows okCtx 1 db0 rfl rfl rfl

theorem createSimple_not_feature {γ : Type} (cap : GeomCap γ) (j : J)
    (h : j.isType "Feature" = false) :
    createSimpleGeometryFromGeoJSON cap j = (cap.parseGeom j).map (repairGeom cap) := by
  rw [createSimpleGeometryFromGeoJSON]
  rw [h]
  simp

/-- Claim C9 (code bug): ProjectController::submitProject discards the
std::future returned by std::async (ProjectController.cpp:365); the
destructor of that temporary future blocks until the task finishes, so
the analysis run completes before the 202 acknowledgement is built —
in the model, the state paired with the response already carries the
completed run's status transition. -/
theorem c9_response_produced_after_analysis :
    (submitProjectTail okCtx 1 db0).2 =
      { status := 202,
        message := "Project submission accepted. Analysis is in progress." } ∧
    (submitProjectTail okCtx 1 db0).1.findProject 1 =
      some { status := ProjectStatus.UnderReview } := by
  refine ⟨rfl, ?_⟩
  simp [submitProjectTail, analyzeProject, deleteByProjectId, findAllActiveProtections,
    okCtx, db0, unitCap, row42, toProtection, convertProtectionGeometry, parseProjectGeoms,
    insertZoneConflicts, processZone, zoneHits, updateStatusStep, Db.findProject,
    Db.storeProject, createSimple_not_feature, J.isType, J.get, List.lookup, repairGeom]

theorem zoneHits_step_true {γ : Type} (cap : GeomCap γ) (zg : γ) (l : List γ) (b : List γ) :
    (List.foldl (fun acc g =>
      match cap.intersectsE g zg with
      | .error _ => acc
      | .ok false => acc
      | .ok true => (true, acc.2 ++ (cap.intersection g zg).toList)) (true, b) l).1 = true := by
  induction l generalizing b with
  | nil => rfl
  | cons g rest ih =>
    simp only [List.foldl_cons]
    cases h : cap.intersectsE g zg with
    | error e => exact ih b
    | ok tv =>
      cases tv with
      | false => exact ih b
      | true => exact ih _

theorem zoneHits_fst_of_mem {γ : Type} (cap : GeomCap γ) (gs : List γ) (zg : γ) (g : γ)
    (hg : g ∈ gs) (ht : cap.intersectsE g zg = .ok true) :
    (zoneHits cap gs zg).1 = true := by
  unfold zoneHits
  induction gs with
  | nil => cases hg
  | cons g0 rest ih =>
    simp only [List.foldl_cons]
    rcases List.mem_cons.mp hg with hEq | hMem
    · subst hEq
      rw [ht]
      exact zoneHits_step_true cap zg rest _
    · cases h0 : cap.intersectsE g0 zg with
      | error e => exact ih hMem
      | ok tv =>
        cases tv with
        | false => exact ih hMem
        | true => exact zoneHits_step_true cap zg rest _

theorem processZone_of_hit {γ : Type} (cap : GeomCap γ) (pid : Int) (gs : List γ)
    (p : Protection) (zg0 : γ)
    (hparse : createSimpleGeometryFromGeoJSON cap p.protection_geometry = some zg0)
    (hhit : (zoneHits cap gs (repairGeom cap zg0)).1 = true) :
    processZone cap pid gs p = some
      { project_id := pid
        flight_procedure_id := p.procedure_id
        description := conflictDescription p
        conflicting_geometry :=
          conflictGeomJson cap (zoneHits cap gs (repairGeom cap zg0)).2 } := by
  unfold processZone
  rw [hparse]
  simp only [hhit, if_true]

theorem countP_filterMap_inserts_zero {γ : Type} (c : Ctx γ) (pid : Int) (gs : List γ)
    (l : List Protection) (procid : Int) (h : ∀ q ∈ l, q.procedure_id ≠ procid) :
    ((l.filterMap (fun p => (processZone c.cap pid gs p).bind (fun row =>
        if c.insertOk row then some row else none))).countP
      (fun r => r.flight_procedure_id == procid)) = 0 := by
  rw [List.countP_eq_zero]
  intro r hr
  rcases List.mem_filterMap.mp hr with ⟨q, hq, hfq⟩
  cases hz : processZone c.cap pid gs q with
  | none => rw [hz] at hfq; cases hfq
  | some row =>
    rw [hz] at hfq
    simp only [Option.some_bind] at hfq
    split at hfq
    · cases hfq
      have hid := (processZone_ids hz).2
      simp only [hid, beq_iff_eq]
      exact h q hq
    · cases hfq

/-- Claim C3: a protection zone intersected by at least one project
geometry yields exactly one Conflict row for the (project, zone) pair
in the run's inserts (given the zone occurs once, its procedure id is
unique among the active zones and inserts succeed); a single computed
intersection geometry is exported directly and several are combined
into one collection before export. -/
theorem c3_exactly_one_row_per_zone {γ : Type} (c : Ctx γ) (pid : Int) (pj : J)
    (l1 l2 : List Protection) (p : Protection) (zg0 : γ)
    (hrow : c.projGeomRow = some (some pj))
    (hpf : c.projGeomFault = false)
    (hps : findAllActiveProtections c = l1 ++ p :: l2)
    (hgs : (parseProjectGeoms c.cap pj).isEmpty = false)
    (hparse : createSimpleGeometryFromGeoJSON c.cap p.protection_geometry = some zg0)
    (hhit : (zoneHits c.cap (parseProjectGeoms c.cap pj) (repairGeom c.cap zg0)).1 = true)
    (huniq : ∀ q ∈ l1 ++ l2, q.procedure_id ≠ p.procedure_id)
    (hins : ∀ row, c.insertOk row = true) :
    ((runInserts c pid).countP (fun r => r.flight_procedure_id == p.procedure_id)) = 1 ∧
    (∀ g, conflictGeomJson c.cap [g] = (c.cap.exportJson g).getD emptyGeomJson) ∧
    (∀ g1 g2 rest, conflictGeomJson c.cap (g1 :: g2 :: rest) =
      (c.cap.exportJson (c.cap.mkCollection (g1 :: g2 :: rest))).getD emptyGeomJson) := by
  refine ⟨?_, fun g => rfl, fun g1 g2 rest => rfl⟩
  unfold runInserts
  rw [hpf]
  simp only [Bool.false_eq_true, if_false]
  rw [hrow]
  have hne : (findAllActiveProtections c).isEmpty = false := by
    rw [hps]
    cases l1 <;> rfl
  rw [hne]
  simp only [Bool.false_eq_true, if_false, hgs]
  rw [hps, List.filterMap_append, List.countP_append, List.filterMap_cons]
  rw [processZone_of_hit c.cap pid _ p zg0 hparse hhit]
  simp only [Option.some_bind, hins, if_true]
  rw [List.countP_cons]
  have h1 := countP_filterMap_inserts_zero c pid (parseProjectGeoms c.cap pj) l1
    p.procedure_id (fun q hq => huniq q (List.mem_append_left l2 hq))
  have h2 := countP_filterMap_inserts_zero c pid (parseProjectGeoms c.cap pj) l2
    p.procedure_id (fun q hq => huniq q (List.mem_append_right l1 hq))
  simp only [hins, if_true] at h1 h2
  rw [h1, h2]
  simp

theorem c3_witness :
    ((runInserts hitCtx 1).countP
      (fun r => r.flight_procedure_id == (toProtection row42).procedure_id)) = 1 :=
  (c3_exactly_one_row_per_zone hitCtx 1 (J.obj [("type", J.str "Point")]) [] []
    (toProtection row42) () rfl rfl rfl
    (by simp [parseProjectGeoms, J.isType, J.get, List.lookup, createSimple_not_feature,
      hitCtx, okCtx, hitCap, repairGeom])
    (by simp [toProtection, convertProtectionGeometry, row42, createSimple_not_feature,
      J.isType, J.get, hitCtx, okCtx, hitCap, repairGeom])
    (by simp [zoneHits, parseProjectGeoms, J.isType, J.get, List.lookup,
      createSimple_not_feature, hitCtx, okCtx, hitCap, repairGeom])
    (by simp)
    (fun row => rfl)).1

/-- hitCap, but the exact intersection computation always fails
(OGR_G_Intersection returns null). -/
def noIntCap : GeomCap Unit :=
  { hitCap with intersection := fun _ _ => none }

/-- Claim C4: a positive intersects test records the hit with no
assumption on the intersection computation (so also when it fails);
and a zone with a recorded hit but zero computed intersection
geometries is persisted with the empty-but-valid placeholder as its
conflicting_geometry, never null and never other text. -/
theorem c4_best_effort_hit_and_placeholder {γ : Type} (cap : GeomCap γ) (pid : Int)
    (gs : List γ) (p : Protection) (zg0 : γ) (g : γ)
    (hparse : createSimpleGeometryFromGeoJSON cap p.protection_geometry = some zg0)
    (hg : g ∈ gs) :
    (cap.intersectsE g (repairGeom cap zg0) = .ok true →
      (zoneHits cap gs (repairGeom cap zg0)).1 = true ∧
        processZone cap pid gs p ≠ none) ∧
    ((zoneHits cap gs (repairGeom cap zg0)).1 = true →
      (zoneHits cap gs (repairGeom cap zg0)).2 = [] →
      processZone cap pid gs p = some
        { project_id := pid
          flight_procedure_id := p.procedure_id
          description := conflictDescription p
          conflicting_geometry := emptyGeomJson }) := by
  constructor
  · intro ht
    have hfst := zoneHits_fst_of_mem cap gs (repairGeom cap zg0) g hg ht
    refine ⟨hfst, ?_⟩
    rw [processZone_of_hit cap pid gs p zg0 hparse hfst]
    simp
  · intro hfst hnil
    rw [processZone_of_hit cap pid gs p zg0 hparse hfst, hnil]
    rfl

theorem c4_witness :
    (zoneHits noIntCap [()] (repairGeom noIntCap ())).1 = true ∧
    (zoneHits noIntCap [()] (repairGeom noIntCap ())).2 = [] ∧
    processZone noIntCap 1 [()] (toProtection row42) = some
      { project_id := 1
        flight_procedure_id := (toProtection row42).procedure_id
        description := conflictDescription (toProtection row42)
        conflicting_geometry := emptyGeomJson } := by
  have h := c4_best_effort_hit_and_placeholder noIntCap 1 [()] (toProtection row42) () ()
    (by simp [toProtection, convertProtectionGeometry, row42, createSimple_not_feature,
      J.isType, J.get, noIntCap, hitCap, repairGeom])
    (List.mem_singleton.mpr rfl)
  have h1 := (h.1 rfl).1
  have h2 : (zoneHits noIntCap [()] (repairGeom noIntCap ())).2 = [] := rfl
  exact ⟨h1, h2, h.2 h1 h2⟩

/-- A FeatureCollection payload with the given features. -/
def mkFeatureCollection (feats : List J) : J :=
  J.obj [("type", J.str "FeatureCollection"), ("features", J.arr feats)]

theorem c5_aux {γ : Type} (cap : GeomCap γ) (feats : List J)
    (h : ∀ f ∈ feats, ∀ gj, f.get "geometry" = some gj →
      (createSimpleGeometryFromGeoJSON cap gj).isSome = true) :
    (feats.filterMap (fun f => (f.get "geometry").bind
      (fun gj => createSimpleGeometryFromGeoJSON cap gj))).length =
      feats.countP (fun f => (f.get "geometry").isSome) := by
  revert h
  induction feats with
  | nil => intro h; rfl
  | cons f rest ih =>
    intro h
    have hrest := ih (fun f' hf' gj hgj => h f' (List.mem_cons_of_mem f hf') gj hgj)
    rw [List.filterMap_cons, List.countP_cons]
    cases hg : f.get "geometry" with
    | none => simp [hrest]
    | some gj =>
      have hsome := h f (List.mem_cons_self f rest) gj hg
      rcases Option.isSome_iff_exists.mp hsome with ⟨g, hgg⟩
      simp [hgg, hrest]

/-- Claim C5: normalizing a FeatureCollection whose features either
carry a successfully parsing geometry or miss the geometry key yields
exactly the parses of the geometry-carrying features, in order (the
filterMap); in particular the count equals the number of features with
a geometry key, and features missing it are skipped without aborting
the batch. -/
theorem c5_normalizer_counts {γ : Type} (cap : GeomCap γ) (feats : List J)
    (h : ∀ f ∈ feats, ∀ gj, f.get "geometry" = some gj →
      (createSimpleGeometryFromGeoJSON cap gj).isSome = true) :
    parseProjectGeoms cap (mkFeatureCollection feats) =
      feats.filterMap (fun f => (f.get "geometry").bind
        (fun gj => createSimpleGeometryFromGeoJSON cap gj)) ∧
    (parseProjectGeoms cap (mkFeatureCollection feats)).length =
      feats.countP (fun f => (f.get "geometry").isSome) := by
  have hty : (mkFeatureCollection feats).isType "FeatureCollection" = true := by
    simp [mkFeatureCollection, J.isType, J.get, List.lookup]
  have hfe : (mkFeatureCollection feats).get "features" = some (J.arr feats) := by
    simp [mkFeatureCollection, J.get, List.lookup]
  have heq : parseProjectGeoms cap (mkFeatureCollection feats) =
      feats.filterMap (fun f => (f.get "geometry").bind
        (fun gj => createSimpleGeometryFromGeoJSON cap gj)) := by
    unfold parseProjectGeoms
    rw [hty, hfe]
    simp only [if_true]
    congr 1
    funext f
    cases f.get "geometry" <;> rfl
  exact ⟨heq, heq ▸ c5_aux cap feats h⟩

/-- A feature carrying a raw geometry. -/
def featWithGeom : J := J.obj [("geometry", J.str "g")]

/-- A feature with no geometry key. -/
def featNoGeom : J := J.obj [("properties", J.null)]

theorem c5_witness :
    parseProjectGeoms unitCap (mkFeatureCollection [featWithGeom, featNoGeom]) =
      [featWithGeom, featNoGeom].filterMap (fun f => (f.get "geometry").bind
        (fun gj => createSimpleGeometryFromGeoJSON unitCap gj)) ∧
    (parseProjectGeoms unitCap (mkFeatureCollection [featWithGeom, featNoGeom])).length =
      [featWithGeom, featNoGeom].countP (fun f => (f.get "geometry").isSome) := by
  apply c5_normalizer_counts
  intro f hf gj hgj
  rcases List.mem_cons.mp hf with hEq | hMem
  · subst hEq
    simp only [featWithGeom, J.get, List.lookup] at hgj
    simp only [show ("geometry" == "geometry") = true from rfl] at hgj
    cases hgj
    simp [createSimple_not_feature, J.isType, J.get, unitCap]
  · rcases List.mem_cons.mp hMem with hEq2 | hMem2
    · subst hEq2
      simp [featNoGeom, J.get, List.lookup] at hgj
    · cases hMem2

/-- A capability permitted by the repair contract in which Buffer(0)
can return a still-invalid geometry (the buffer-0 trick is a
best-effort heuristic, not a guaranteed fix): only geometry 2 is
valid and each buffer step advances by one. -/
def driftCap : GeomCap (Fin 3) :=
  { parseGeom := fun _ => none
    isValid := fun g => decide (g = 2)
    buffer0 := fun g => some (g + 1)
    intersectsE := fun _ _ => .ok false
    intersection := fun _ _ => none
    mkCollection := fun _ => 0
    exportJson := fun _ => none }

/-- Counterexample to C6 as stated: when a Buffer(0) result is itself
invalid, applying the code's repair step a second time changes the
geometry again, so repair(repair(g)) ≠ repair(g). -/
theorem c6_counterexample :
    repairGeom driftCap (repairGeom driftCap 0) ≠ repairGeom driftCap 0 := by decide

/-- Claim C6, amended: repairing an already-valid geometry is a no-op,
unconditionally; and repair(repair(g)) = repair(g) for every geometry
g provided every non-null Buffer(0) result is valid — without that
guarantee a second repair may change an invalid geometry again. -/
theorem c6_repair_noop_and_idempotent {γ : Type} (cap : GeomCap γ)
    (hbuf : ∀ g g', cap.buffer0 g = some g' → cap.isValid g' = true) :
    (∀ g, cap.isValid g = true → repairGeom cap g = g) ∧
    (∀ g, repairGeom cap (repairGeom cap g) = repairGeom cap g) := by
  have hnoop : ∀ g, cap.isValid g = true → repairGeom cap g = g := by
    intro g hv
    simp [repairGeom, hv]
  refine ⟨hnoop, ?_⟩
  intro g
  by_cases hv : cap.isValid g = true
  · rw [hnoop g hv, hnoop g hv]
  · have hv' : cap.isValid g = false := by
      cases h : cap.isValid g
      · rfl
      · exact absurd h hv
    cases hb : cap.buffer0 g with
    | none =>
      have h1 : repairGeom cap g = g := by simp [repairGeom, hv', hb]
      rw [h1]
      exact h1
    | some g2 =>
      have hval := hbuf g g2 hb
      have h1 : repairGeom cap g = g2 := by simp [repairGeom, hv', hb]
      rw [h1]
      exact hnoop g2 hval

/-- driftCap with a Buffer(0) that always lands on the valid geometry. -/
def settleCap : GeomCap (Fin 3) := { driftCap with buffer0 := fun _ => some 2 }

theorem c6_witness :
    repairGeom settleCap (repairGeom settleCap 0) = repairGeom settleCap 0 :=
  (c6_repair_noop_and_idempotent settleCap (by decide)).2 0

theorem polyCoordinates_length (feats : List J)
    (hpoly : ∀ f ∈ feats, ∃ g, f.get "geometry" = some g ∧
      g.get "type" = some (J.str "Polygon")) :
    (polyCoordinates feats).length = feats.length := by
  revert hpoly
  induction feats with
  | nil => intro hpoly; rfl
  | cons f rest ih =>
    intro hpoly
    rcases hpoly f (List.mem_cons_self f rest) with ⟨g, hg, hty⟩
    have hrest := ih (fun f' hf' => hpoly f' (List.mem_cons_of_mem f hf'))
    unfold polyCoordinates
    rw [List.filterMap_cons, hg]
    simp only [hty, if_pos rfl]
    unfold polyCoordinates at hrest
    simp [hrest]

/-- Claim C7: an active zone whose stored geometry is a
FeatureCollection of polygons is normalized by the repository
(findAllActiveProtections) to a MultiPolygon collecting every
feature's coordinates; that MultiPolygon is a raw geometry object, so
the engine parses it rather than failing, and the zone is hit-tested
against the project GeometrySet rather than skipped. -/
theorem c7_fc_zone_normalized_and_tested {γ : Type} (cap : GeomCap γ) (pid : Int)
    (gs : List γ) (r : ProtRow) (fc : J) (feats : List J) (g0 : γ)
    (hgeom : r.geometry = some fc)
    (hfeats : fc.get "features" = some (J.arr feats))
    (hpoly : ∀ f ∈ feats, ∃ g, f.get "geometry" = some g ∧
      g.get "type" = some (J.str "Polygon"))
    (hparse : cap.parseGeom (multiPolygonOf feats) = some g0) :
    (toProtection r).protection_geometry = multiPolygonOf feats ∧
    (polyCoordinates feats).length = feats.length ∧
    createSimpleGeometryFromGeoJSON cap (multiPolygonOf feats) =
      some (repairGeom cap g0) ∧
    processZone cap pid gs (toProtection r) =
      (if (zoneHits cap gs (repairGeom cap (repairGeom cap g0))).1 then
        some { project_id := pid
               flight_procedure_id := (toProtection r).procedure_id
               description := conflictDescription (toProtection r)
               conflicting_geometry := conflictGeomJson cap
                 (zoneHits cap gs (repairGeom cap (repairGeom cap g0))).2 }
      else none) := by
  have hconv : (toProtection r).protection_geometry = multiPolygonOf feats := by
    simp [toProtection, convertProtectionGeometry, hgeom, hfeats]
  have hmp : createSimpleGeometryFromGeoJSON cap (multiPolygonOf feats) =
      some (repairGeom cap g0) := by
    rw [createSimple_not_feature]
    · rw [hparse]; rfl
    · simp [multiPolygonOf, J.isType, J.get, List.lookup]
  refine ⟨hconv, polyCoordinates_length feats hpoly, hmp, ?_⟩
  unfold processZone
  rw [hconv, hmp]

/-- A polygon feature as stored inside a protection FeatureCollection. -/
def polyFeature : J :=
  J.obj [("geometry", J.obj [("type", J.str "Polygon"), ("coordinates", J.arr [])])]

/-- A protection geometry that is a FeatureCollection of one polygon. -/
def fcJson : J := J.obj [("features", J.arr [polyFeature])]

/-- A protection row storing a FeatureCollection geometry. -/
def fcRow : ProtRow :=
  { procedure_id := 42, procedure_code := "P1", name := "Noise", geometry := some fcJson }

theorem c7_witness :
    (toProtection fcRow).protection_geometry = multiPolygonOf [polyFeature] ∧
    createSimpleGeometryFromGeoJSON unitCap (multiPolygonOf [polyFeature]) =
      some (repairGeom unitCap ()) := by
  have h := c7_fc_zone_normalized_and_tested unitCap 1 [] fcRow fcJson [polyFeature] ()
    rfl (by simp [fcJson, J.get, List.lookup])
    (by
      intro f hf
      rw [List.mem_singleton] at hf
      subst hf
      exact ⟨J.obj [("type", J.str "Polygon"), ("coordinates", J.arr [])],
        by simp [polyFeature, J.get, List.lookup], by simp [J.get, List.lookup]⟩)
    rfl
  exact ⟨h.1, h.2.2.1⟩
